import Mathlib

/-!
# Verification of the Umbrella cleanup pipeline

A shallow embedding of the candidate-selection and staged-deletion pipeline
of the `UmbrellaCleanupWithDefender` repository:

* `utils/timestamps.py` — `parse_timestamp`
* `Umbrella clean-up/main.py` — `filter_by_created_age`
* `Umbrella clean-up/scripts/destination_cleanup_selector.py` — `run_cleanup_selector`
* `scripts/umbrella_delete.py` — `delete_destinations`, `run_umbrella_delete`

Instants are embedded as integers: microseconds since the Unix epoch, UTC.
Python `datetime` comparisons of timezone-aware datetimes coincide with
comparison of these integers.  File and network I/O are modelled by explicit
parameters (an HTTP status oracle per batch, boolean flags for file existence,
authentication success and persistence success) and by traces recorded in the
result structures.
-/

set_option maxRecDepth 16384

namespace Umbrella

/-- Microseconds in one day (`timedelta(days=1)` at microsecond resolution). -/
def dayUs : Int := 86400000000

/-! ## Timestamp parsing (`utils/timestamps.py`, `parse_timestamp`)

`parse_timestamp` strips the input, tries `datetime.fromisoformat` when the
string contains the character `T` (after replacing every `Z` with `+00:00`),
and otherwise (or when the ISO parse fails) tries
`datetime.strptime(v, "%Y-%m-%d %H:%M:%S")`; a timezone-naive result is
assumed UTC; any failure yields `None`.

`datetime.fromisoformat` is an external library routine; it is modelled here
restricted to the extended ISO-8601 format actually produced and consumed by
this pipeline: `YYYY-MM-DD` optionally followed by a single separator
character and `HH:MM[:SS[.digits]]` and an optional `±HH:MM` offset
(the CPython 3.11 short/basic forms such as `YYYYMMDD` are outside the model).
-/

/-- Numeric value of a decimal digit character. -/
def digVal (c : Char) : Nat := c.toNat - 48

/-- Read exactly two decimal digits from the front of the character list. -/
def read2 : List Char → Option (Nat × List Char)
  | a :: b :: rest =>
      if a.isDigit && b.isDigit then some (10 * digVal a + digVal b, rest) else none
  | _ => none

/-- Read exactly four decimal digits from the front of the character list. -/
def read4 : List Char → Option (Nat × List Char)
  | a :: b :: c :: d :: rest =>
      if a.isDigit && b.isDigit && c.isDigit && d.isDigit then
        some (1000 * digVal a + 100 * digVal b + 10 * digVal c + digVal d, rest)
      else none
  | _ => none

/-- Leap year test, as in the proleptic Gregorian calendar used by `datetime`. -/
def isLeap (y : Nat) : Bool := y % 4 == 0 && (y % 100 != 0 || y % 400 == 0)

/-- Number of days in a month (`1 ≤ m ≤ 12` expected). -/
def daysInMonth (y m : Nat) : Nat :=
  if m == 2 then (if isLeap y then 29 else 28)
  else if m == 4 || m == 6 || m == 9 || m == 11 then 30
  else 31

/-- Validity of a calendar date for `datetime` (years 1–9999). -/
def validDate (y m d : Nat) : Bool :=
  1 ≤ y && y ≤ 9999 && 1 ≤ m && m ≤ 12 && 1 ≤ d && d ≤ daysInMonth y m

/-- Absolute day number of a civil date counted from 0000-03-01
(Howard Hinnant's `days_from_civil`, specialised to years ≥ 1, so all
intermediate quantities are natural numbers). -/
def civilDays (y m d : Nat) : Nat :=
  let yAdj : Nat := if m ≤ 2 then y - 1 else y
  let era : Nat := yAdj / 400
  let yoe : Nat := yAdj % 400
  let mp : Nat := (m + 9) % 12
  let doy : Nat := (153 * mp + 2) / 5 + d - 1
  let doe : Nat := yoe * 365 + yoe / 4 - yoe / 100 + doy
  era * 146097 + doe

/-- Day number of the Unix epoch 1970-01-01 in the `civilDays` scale. -/
def epochDays : Nat := 719468

/-- UTC instant (microseconds since the Unix epoch) of a civil date-time with
fractional microseconds `us` and a timezone offset of `offMin` minutes. -/
def toInstant (y m d h mi s us : Nat) (offMin : Int) : Int :=
  ((civilDays y m d : Int) - (epochDays : Int)) * dayUs
    + ((h * 3600 + mi * 60 + s) * 1000000 + us : Nat)
    - offMin * 60000000

/-- Read a fractional-second part: one or more digits after the `.`/`,`,
scaled to microseconds (digits beyond the sixth are ignored, as CPython does). -/
def readFrac (cs : List Char) : Option (Nat × List Char) :=
  let ds := cs.takeWhile Char.isDigit
  let rest := cs.dropWhile Char.isDigit
  if ds.isEmpty then none
  else
    let sig := ds.take 6
    let v := sig.foldl (fun a c => a * 10 + digVal c) 0
    some (v * 10 ^ (6 - sig.length), rest)

/-- Read a `±HH:MM` UTC-offset suffix; the whole remainder must be consumed.
Returns the signed offset in minutes. -/
def readOffset (cs : List Char) : Option Int :=
  match cs with
  | sign :: rest =>
      if sign = '+' || sign = '-' then
        match read2 rest with
        | some (oh, ':' :: rest2) =>
            match read2 rest2 with
            | some (om, []) =>
                if oh ≤ 23 && om ≤ 59 then
                  some (if sign = '+' then (oh * 60 + om : Nat) else -(oh * 60 + om : Nat))
                else none
            | _ => none
        | _ => none
      else none
  | [] => none

/-- Read `HH:MM[:SS[.digits]]` followed by an optional offset; the whole
remainder must be consumed.  Returns `(h, mi, s, us, offset-in-minutes)`
where a missing offset is `none` (timezone-naive). -/
def readTimeTail (cs : List Char) : Option (Nat × Nat × Nat × Nat × Option Int) :=
  match read2 cs with
  | some (h, ':' :: rest) =>
      match read2 rest with
      | some (mi, rest2) =>
          match rest2 with
          | [] => some (h, mi, 0, 0, none)
          | ':' :: rest3 =>
              match read2 rest3 with
              | some (s, rest4) =>
                  match rest4 with
                  | [] => some (h, mi, s, 0, none)
                  | '.' :: rest5 =>
                      match readFrac rest5 with
                      | some (us, rest6) =>
                          match rest6 with
                          | [] => some (h, mi, s, us, none)
                          | _ =>
                              match readOffset rest6 with
                              | some off => some (h, mi, s, us, some off)
                              | none => none
                      | none => none
                  | _ =>
                      match readOffset rest4 with
                      | some off => some (h, mi, s, 0, some off)
                      | none => none
              | _ => none
          | _ =>
              match readOffset rest2 with
              | some off => some (h, mi, 0, 0, some off)
              | none => none
      | _ => none
  | _ => none

/-- Model of `datetime.fromisoformat` (restricted to the extended format, see
the section comment) composed with conversion to a UTC instant: a
timezone-naive result is later assumed UTC by `parse_timestamp`, so a missing
offset is treated as offset `0` here. -/
def fromIso (cs : List Char) : Option Int :=
  match read4 cs with
  | some (y, '-' :: rest) =>
      match read2 rest with
      | some (m, '-' :: rest2) =>
          match read2 rest2 with
          | some (d, rest3) =>
              if validDate y m d then
                match rest3 with
                | [] => some (toInstant y m d 0 0 0 0 0)
                | _sep :: timeCs =>
                    match readTimeTail timeCs with
                    | some (h, mi, s, us, off) =>
                        if h ≤ 23 && mi ≤ 59 && s ≤ 59 then
                          some (toInstant y m d h mi s us (off.getD 0))
                        else none
                    | none => none
              else none
          | _ => none
      | _ => none
  | _ => none

/-- Model of `datetime.strptime(v, "%Y-%m-%d %H:%M:%S")` (result assumed UTC):
the entire string must match the fixed pattern. -/
def fromFixed (cs : List Char) : Option Int :=
  match read4 cs with
  | some (y, '-' :: rest) =>
      match read2 rest with
      | some (m, '-' :: rest2) =>
          match read2 rest2 with
          | some (d, ' ' :: rest3) =>
              match read2 rest3 with
              | some (h, ':' :: rest4) =>
                  match read2 rest4 with
                  | some (mi, ':' :: rest5) =>
                      match read2 rest5 with
                      | some (s, []) =>
                          if validDate y m d && h ≤ 23 && mi ≤ 59 && s ≤ 59 then
                            some (toInstant y m d h mi s 0 0)
                          else none
                      | _ => none
                  | _ => none
              | _ => none
          | _ => none
      | _ => none
  | _ => none

/-- `v.replace("Z", "+00:00")`: every occurrence of the character `Z` is
replaced by the five characters `+00:00`. -/
def replaceZ (cs : List Char) : List Char :=
  cs.flatMap fun c => if c = 'Z' then ['+', '0', '0', ':', '0', '0'] else [c]

/-- Python `str.strip()`: drop leading and trailing whitespace. -/
def stripWs (cs : List Char) : List Char :=
  ((cs.dropWhile Char.isWhitespace).reverse.dropWhile Char.isWhitespace).reverse

/-- `parse_timestamp` from `utils/timestamps.py`, on an already-present string
value.  Returns the UTC instant in microseconds, or `none` ("Unparseable"). -/
def parse_timestamp (v : String) : Option Int :=
  if v = "" then none
  else
    let w := stripWs v.data
    if w.contains 'T' then
      match fromIso (replaceZ w) with
      | some t => some t
      | none => fromFixed w
    else fromFixed w

/-- `parse_timestamp` applied to the result of `row.get(key)`: Python passes
`None` straight in, and `if not value` makes both `None` and `""` unparseable. -/
def parseTsField : Option String → Option Int
  | none => none
  | some s => parse_timestamp s

/-! ## Records

A CSV row as `csv.DictReader` yields it: a field-name → string mapping,
embedded as an association list.  `Record.get` is Python's `row.get(key)`:
`none` when the key is absent. -/

/-- One destination record: an ordered field-name/value association list. -/
def Record : Type := List (String × String)

instance : DecidableEq Record := inferInstanceAs (DecidableEq (List (String × String)))

/-- `row.get(key)`: the value of the first matching field, or `none`. -/
def Record.get (row : Record) (key : String) : Option String :=
  (List.find? (fun p => p.1 = key) row).map (·.2)

/-! ## Age filter (`main.py`, `filter_by_created_age`)

The cutoff is `now - timedelta(days=created_days)`.  A row is kept iff its
`createdAt` is unparseable (`None`) or `≤ cutoff`; otherwise it counts as
"too new".  `now` is a parameter of the embedding (the code reads the clock). -/

/-- The keep test of the age filter: `created is None or created <= cutoff`. -/
def keepByAge (now : Int) (created_days : Int) (row : Record) : Bool :=
  match parseTsField (row.get "createdAt") with
  | none => true
  | some t => t ≤ now - created_days * dayUs

/-- `filter_by_created_age` from `main.py`, reduced to its record-set core:
returns the kept rows (in input order) and the discarded-as-too-new count. -/
def filter_by_created_age (rows : List Record) (now : Int) (created_days : Int) :
    List Record × Nat :=
  (rows.filter (keepByAge now created_days),
   rows.countP (fun row => !keepByAge now created_days row))

/-! ## Candidate selector
(`destination_cleanup_selector.py`, `run_cleanup_selector`)

The loop re-applies the age criterion (`continue` on parseable-and-newer
rows), then — only when `defender_days` is given — requires
`observedInDefender` unparseable/absent or `≤ now - defender_days` days.
The CSV side output restricts each candidate to the non-empty column names
(missing values default to `""`), and the ID list coerces each truthy `id`
with Python `int(...)`, which raises on a non-integer string. -/

/-- The Defender-inactivity test: trivially true when no crosscheck was done,
else `last_seen is None or last_seen <= cutoff_defender`. -/
def defenderInactive (now : Int) (defender_days : Option Int) (row : Record) : Bool :=
  match defender_days with
  | none => true
  | some d =>
      match parseTsField (row.get "observedInDefender") with
      | none => true
      | some t => t ≤ now - d * dayUs

/-- The candidate list accumulated by the selector loop. -/
def selectCandidates (rows : List Record) (now : Int)
    (created_days : Int) (defender_days : Option Int) : List Record :=
  rows.filter (fun row => keepByAge now created_days row && defenderInactive now defender_days row)

/-- Python `int(s)` on a string: strip whitespace, optional sign, at least one
decimal digit (the model covers the plain decimal form; underscores between
digits are outside it).  `none` models a raised `ValueError`. -/
def pyInt (s : String) : Option Int :=
  let cs := stripWs s.data
  let core : List Char → Option Nat := fun ds =>
    if !ds.isEmpty && ds.all Char.isDigit then
      some (ds.foldl (fun a c => a * 10 + digVal c) 0)
    else none
  match cs with
  | '+' :: ds => (core ds).map fun n => (n : Int)
  | '-' :: ds => (core ds).map fun n => -(n : Int)
  | ds => (core ds).map fun n => (n : Int)

/-- `[int(row["id"]) for row in candidates if row.get("id")]`: rows with a
missing or empty `id` are skipped by the truthiness guard; a truthy but
non-integer `id` makes `int` raise, modelled as an overall `none`. -/
def extractIds : List Record → Option (List Int)
  | [] => some []
  | row :: rest =>
      match row.get "id" with
      | none => extractIds rest
      | some s =>
          if s = "" then extractIds rest
          else
            match pyInt s with
            | none => none
            | some n => (extractIds rest).map (n :: ·)

/-- Restriction of a row to the given columns, defaulting missing values to
`""` (`{k: row.get(k, "") for k in clean_fieldnames}`). -/
def cleanRow (clean_fieldnames : List String) (row : Record) : Record :=
  clean_fieldnames.map fun k => (k, (row.get k).getD "")

/-- Result of the pure core of `run_cleanup_selector`:
the in-memory candidate rows, the rows written to the candidate CSV, and the
exported ID list (`none` when `int(...)` raised). -/
structure SelectorOutput where
  candidates : List Record
  csvRows : List Record
  idList : Option (List Int)
  deriving DecidableEq

/-- `run_cleanup_selector` from `destination_cleanup_selector.py`, reduced to
its record-set core (file paths and printing stripped). -/
def run_cleanup_selector (rows : List Record) (fieldnames : List String)
    (now : Int) (created_days : Int) (defender_days : Option Int) : SelectorOutput :=
  let candidates := selectCandidates rows now created_days defender_days
  let clean_fieldnames := fieldnames.filter (fun fn => fn ≠ "")
  { candidates := candidates
    csvRows := candidates.map (cleanRow clean_fieldnames)
    idList := extractIds candidates }

/-! ## Batch deletion engine (`scripts/umbrella_delete.py`, `delete_destinations`)

`for i in range(0, total, batch_size): chunk = ids[i:i+batch_size]` slices the
ID list into contiguous batches; one DELETE request is issued per batch; a
response status in `(200, 202, 204)` credits the whole batch to `deleted`,
any other status appends the whole batch to `failures`.  The network is
modelled by a status oracle indexed by batch number, and the requests issued
are recorded as a trace. -/

/-- Contiguous slicing `ids[i:i+bs]`, structurally recursive on a fuel bounded
by the list length (each non-empty step consumes at least one element when
`1 ≤ bs`, so `ids.length` fuel is exact). -/
def chunkFuel (bs : Nat) : Nat → List Int → List (List Int)
  | 0, _ => []
  | _, [] => []
  | fuel + 1, ids => ids.take bs :: chunkFuel bs fuel (ids.drop bs)

/-- The list of batches `ids[0:bs], ids[bs:2*bs], …` issued by the loop. -/
def chunkList (bs : Nat) (ids : List Int) : List (List Int) :=
  chunkFuel bs ids.length ids

/-- `resp.status_code in (200, 202, 204)`. -/
def isSuccess (code : Nat) : Bool :=
  code == 200 || code == 202 || code == 204

/-- Outcome of `delete_destinations`: the returned `(deleted, failures)` pair
plus the trace of batch payloads sent over the network. -/
structure DeleteOutcome where
  deleted : Nat
  failures : List Int
  calls : List (List Int)
  deriving DecidableEq

/-- The deletion loop over the batches: `i` is the batch index fed to the
status oracle, `deleted`/`failures`/`calls` are the accumulators. -/
def runBatches (status : Nat → Nat) (i : Nat) (deleted : Nat)
    (failures : List Int) (calls : List (List Int)) :
    List (List Int) → DeleteOutcome
  | [] => ⟨deleted, failures, calls⟩
  | chunk :: rest =>
      if isSuccess (status i) then
        runBatches status (i + 1) (deleted + chunk.length) failures (calls ++ [chunk]) rest
      else
        runBatches status (i + 1) deleted (failures ++ chunk) (calls ++ [chunk]) rest

/-- `delete_destinations` from `scripts/umbrella_delete.py`, with the HTTP
responses abstracted as a per-batch status oracle. -/
def delete_destinations (ids : List Int) (status : Nat → Nat)
    (batch_size : Nat := 100) : DeleteOutcome :=
  runBatches status 0 0 [] [] (chunkList batch_size ids)

/-! ## High-level wrapper (`scripts/umbrella_delete.py`, `run_umbrella_delete`)

File existence, the interactive confirmation, token acquisition and the
success of the failed-IDs file write are modelled as boolean inputs; the
failed-IDs write is recorded as `(path, contents)`.  The code wraps the
failed-IDs `open`/`json.dump` in no `try`, so a filesystem error there
propagates (modelled as the `ioError` result). -/

/-- `os.path.splitext(p)[0]`: cut at the last `.` that lies after the last
`/` and has at least one non-dot character between them (CPython's
`genericpath._splitext`), else return the path unchanged. -/
def splitextStem (p : String) : String :=
  let cs := p.data
  let sepIdx : Int := match (cs.reverse.findIdx? (· = '/')) with
    | some rj => (cs.length - 1 - rj : Nat)
    | none => -1
  let dotIdx : Int := match (cs.reverse.findIdx? (· = '.')) with
    | some rj => (cs.length - 1 - rj : Nat)
    | none => -1
  if dotIdx > sepIdx then
    let base := (cs.drop (sepIdx + 1).toNat).take (dotIdx - sepIdx - 1).toNat
    if base.any (· ≠ '.') then ⟨cs.take dotIdx.toNat⟩ else p
  else p

/-- The `fail_path` built for persisting failed IDs:
`os.path.splitext(id_json_path)[0] + "_failed.json"`. -/
def failPathOf (id_json_path : String) : String :=
  splitextStem id_json_path ++ "_failed.json"

/-- Terminal state of `run_umbrella_delete`: `fileMissing`/`authFailed` are
the `SystemExit` raises, `cancelled` is the `return None` path, `dryRun` is
the `"DRY_RUN"` sentinel, `live n` is `return deleted`, and `ioError` is an
unhandled exception from the failed-IDs file write. -/
inductive RunResult where
  | fileMissing
  | cancelled
  | authFailed
  | dryRun
  | live (deleted : Nat)
  | ioError
  deriving DecidableEq

/-- Observable outcome of one `run_umbrella_delete` call: the terminal state
plus traces of the side effects the claims talk about. -/
structure RunOutcome where
  result : RunResult
  authAttempted : Bool
  deleteCalls : List (List Int)
  wouldDelete : Option (List Int)
  failWrite : Option (String × List Int)
  deriving DecidableEq

/-- `run_umbrella_delete` from `scripts/umbrella_delete.py`.  Parameters
model the environment: `fileExists` (the `os.path.exists` check), `ids` (the
JSON contents of the file), `confirmed` (the interactive y/n answer, asked
only when not a dry run), `authOk` (token acquisition succeeds), `status`
(per-batch HTTP status), `persistOk` (the failed-IDs file write succeeds). -/
def run_umbrella_delete (id_json_path : String) (fileExists : Bool)
    (ids : List Int) (confirmed : Bool) (authOk : Bool)
    (status : Nat → Nat) (persistOk : Bool) (dry_run : Bool) : RunOutcome :=
  if !fileExists then
    ⟨.fileMissing, false, [], none, none⟩
  else if !dry_run && !confirmed then
    ⟨.cancelled, false, [], none, none⟩
  else if !authOk then
    ⟨.authFailed, true, [], none, none⟩
  else if dry_run then
    ⟨.dryRun, true, [], some ids, none⟩
  else
    let out := delete_destinations ids status
    if out.failures.isEmpty then
      ⟨.live out.deleted, true, out.calls, none, none⟩
    else if persistOk then
      ⟨.live out.deleted, true, out.calls, none, some (failPathOf id_json_path, out.failures)⟩
    else
      ⟨.ioError, true, out.calls, none, none⟩

/-! ## Characterisation of the deletion loop -/

/-- Total length of the batches whose response status is a success, batch
numbering starting at `i`. -/
def succTotal (status : Nat → Nat) (i : Nat) : List (List Int) → Nat
  | [] => 0
  | c :: r => (if isSuccess (status i) then c.length else 0) + succTotal status (i + 1) r

/-- Concatenation of the batches whose response status is not a success,
batch numbering starting at `i`. -/
def failedOf (status : Nat → Nat) (i : Nat) : List (List Int) → List Int
  | [] => []
  | c :: r => (if isSuccess (status i) then [] else c) ++ failedOf status (i + 1) r

/-- Batch sizes as a function of the input length alone: mirrors `chunkFuel`
on lengths (`min bs n` elements per slice). -/
def sizeFuel (bs : Nat) : Nat → Nat → List Nat
  | 0, _ => []
  | _, 0 => []
  | fuel + 1, n => min bs n :: sizeFuel bs fuel (n - bs)

/-- The `id` value of a row when it passes Python's truthiness guard
`if row.get("id")`: present and non-empty. -/
def truthyId (row : Record) : Option String :=
  match row.get "id" with
  | none => none
  | some s => if s = "" then none else some s

theorem runBatches_eq (status : Nat → Nat) :
    ∀ (cs : List (List Int)) (i d : Nat) (f : List Int) (a : List (List Int)),
    runBatches status i d f a cs =
      ⟨d + succTotal status i cs, f ++ failedOf status i cs, a ++ cs⟩ := by
  intro cs
  induction cs with
  | nil =>
      intro i d f a
      simp [runBatches, succTotal, failedOf]
  | cons c r ih =>
      intro i d f a
      by_cases h : isSuccess (status i) = true
      · simp [runBatches, succTotal, failedOf, h, ih, Nat.add_assoc]
      · simp [runBatches, succTotal, failedOf, h, ih, List.append_assoc]

theorem chunkFuel_nil (bs fuel : Nat) : chunkFuel bs fuel [] = [] := by
  cases fuel <;> rfl

theorem chunkFuel_flatten (bs : Nat) (hbs : 1 ≤ bs) :
    ∀ (fuel : Nat) (ids : List Int), ids.length ≤ fuel →
    (chunkFuel bs fuel ids).flatten = ids := by
  intro fuel
  induction fuel with
  | zero =>
      intro ids h
      have : ids = [] := List.length_eq_zero.mp (Nat.le_zero.mp h)
      subst this
      rfl
  | succ n ih =>
      intro ids h
      cases ids with
      | nil => simp [chunkFuel]
      | cons x xs =>
          have hlen : ((x :: xs).drop bs).length ≤ n := by
            simp only [List.length_drop, List.length_cons]
            simp only [List.length_cons] at h
            omega
          simp only [chunkFuel, List.flatten_cons, ih _ hlen, List.take_append_drop]

theorem chunkFuel_length (bs : Nat) (hbs : 1 ≤ bs) :
    ∀ (fuel : Nat) (ids : List Int), ids.length ≤ fuel →
    (chunkFuel bs fuel ids).length = (ids.length + bs - 1) / bs := by
  intro fuel
  induction fuel with
  | zero =>
      intro ids h
      have : ids = [] := List.length_eq_zero.mp (Nat.le_zero.mp h)
      subst this
      simp [chunkFuel_nil, Nat.div_eq_of_lt (by omega : bs - 1 < bs)]
  | succ n ih =>
      intro ids h
      cases ids with
      | nil =>
          simp [chunkFuel, Nat.div_eq_of_lt (by omega : bs - 1 < bs)]
      | cons x xs =>
          have hlen : ((x :: xs).drop bs).length ≤ n := by
            simp only [List.length_drop, List.length_cons]
            simp only [List.length_cons] at h
            omega
          have step := ih _ hlen
          simp only [List.length_drop, List.length_cons] at step
          have hL : (chunkFuel bs (n + 1) (x :: xs)).length
              = (chunkFuel bs n ((x :: xs).drop bs)).length + 1 := by
            simp [chunkFuel]
          rw [hL, step]
          simp only [List.length_cons]
          rcases Nat.lt_or_ge (xs.length + 1) bs with hc | hc
          · have e1 : (xs.length + 1 - bs + bs - 1) / bs = 0 :=
              Nat.div_eq_of_lt (by omega)
            have e2 : (xs.length + 1 + bs - 1) / bs = 1 :=
              Nat.div_eq_of_lt_le (by omega) (by omega)
            rw [e1, e2]
          · have e1 : xs.length + 1 - bs + bs - 1 = xs.length := by omega
            have e2 : xs.length + 1 + bs - 1 = xs.length + bs := by omega
            rw [e1, e2, Nat.add_div_right _ (by omega : 0 < bs)]

theorem chunkFuel_sizes (bs : Nat) :
    ∀ (fuel : Nat) (ids : List Int) (c : List Int),
    c ∈ chunkFuel bs fuel ids → c.length ≤ bs := by
  intro fuel
  induction fuel with
  | zero => intro ids c h; simp [chunkFuel] at h
  | succ n ih =>
      intro ids c h
      cases ids with
      | nil => simp [chunkFuel] at h
      | cons x xs =>
          simp only [chunkFuel, List.mem_cons] at h
          rcases h with h | h
          · subst h; exact List.length_take_le bs (x :: xs)
          · exact ih _ _ h

theorem chunkFuel_map_length (bs : Nat) :
    ∀ (fuel : Nat) (ids : List Int),
    (chunkFuel bs fuel ids).map List.length = sizeFuel bs fuel ids.length := by
  intro fuel
  induction fuel with
  | zero => intro ids; cases ids <;> rfl
  | succ n ih =>
      intro ids
      cases ids with
      | nil => rfl
      | cons x xs =>
          simp only [chunkFuel, List.map_cons, ih, List.length_take,
            List.length_cons, List.length_drop]
          rfl

theorem succTotal_add_failed (status : Nat → Nat) :
    ∀ (cs : List (List Int)) (i : Nat),
    succTotal status i cs + (failedOf status i cs).length = cs.flatten.length := by
  intro cs
  induction cs with
  | nil => intro i; simp [succTotal, failedOf]
  | cons c r ih =>
      intro i
      have hr := ih (i + 1)
      by_cases h : isSuccess (status i) = true
      · simp only [succTotal, failedOf, if_pos h, List.flatten_cons,
          List.length_append, List.nil_append]
        omega
      · simp only [succTotal, failedOf, if_neg h, List.flatten_cons,
          List.length_append]
        omega

theorem failedOf_sublist (status : Nat → Nat) :
    ∀ (cs : List (List Int)) (i : Nat),
    List.Sublist (failedOf status i cs) cs.flatten := by
  intro cs
  induction cs with
  | nil => intro i; simp [failedOf]
  | cons c r ih =>
      intro i
      simp only [failedOf, List.flatten_cons]
      by_cases h : isSuccess (status i) = true
      · simp only [h, if_pos]
        exact (List.nil_sublist c).append (ih (i + 1))
      · simp only [h, if_neg, Bool.false_eq_true, not_false_iff]
        exact (List.Sublist.refl c).append (ih (i + 1))

theorem failedOf_mem (status : Nat → Nat) :
    ∀ (cs : List (List Int)) (i j : Nat) (c : List Int),
    cs[j]? = some c → isSuccess (status (i + j)) = false →
    ∀ x ∈ c, x ∈ failedOf status i cs := by
  intro cs
  induction cs with
  | nil => intro i j c hc; simp at hc
  | cons c0 r ih =>
      intro i j c hc hfail x hx
      cases j with
      | zero =>
          simp only [List.getElem?_cons_zero, Option.some.injEq] at hc
          subst hc
          have h0 : isSuccess (status i) = false := by simpa using hfail
          simp only [failedOf, h0, Bool.false_eq_true, if_false, List.mem_append]
          exact Or.inl hx
      | succ j' =>
          simp only [List.getElem?_cons_succ] at hc
          have : isSuccess (status ((i + 1) + j')) = false := by
            have e : i + 1 + j' = i + (j' + 1) := by omega
            rw [e]; exact hfail
          have := ih (i + 1) j' c hc this x hx
          simp only [failedOf, List.mem_append]
          right
          exact this

/-- Closed form of the deletion engine: deleted count, failure list and
request trace, in terms of the batch decomposition. -/
theorem delete_destinations_eq (ids : List Int) (status : Nat → Nat) (bs : Nat) :
    delete_destinations ids status bs =
      ⟨succTotal status 0 (chunkList bs ids),
       failedOf status 0 (chunkList bs ids),
       chunkList bs ids⟩ := by
  simp only [delete_destinations]
  rw [runBatches_eq]
  simp

/-! ## The claims -/

/-- **C3** (batch partitioning): for every ID list and status oracle,
`delete_destinations` with batch size 100 issues exactly `⌈L/100⌉` delete
requests (`(L + 99) / 100` in natural-number division), zero requests when
the list is empty; the request payloads are the contiguous order-preserving
slices of the ID list, concatenating back to it, each of size at most 100;
and for the 250-element list `0,…,249` exactly 3 requests are issued with
sizes `[100, 100, 50]`. -/
theorem batch_partitioning (ids : List Int) (status : Nat → Nat) :
    (delete_destinations ids status 100).calls = chunkList 100 ids
    ∧ (delete_destinations ids status 100).calls.length = (ids.length + 99) / 100
    ∧ (delete_destinations ids status 100).calls.flatten = ids
    ∧ (∀ c ∈ (delete_destinations ids status 100).calls, c.length ≤ 100)
    ∧ (ids = [] → (delete_destinations ids status 100).calls = [])
    ∧ (∀ ids2 : List Int, ids2.length = 250 →
        (delete_destinations ids2 status 100).calls.map List.length
          = [100, 100, 50]) := by
  rw [delete_destinations_eq]
  refine ⟨rfl, ?_, ?_, ?_, ?_, ?_⟩
  · exact chunkFuel_length 100 (by omega) ids.length ids le_rfl
  · exact chunkFuel_flatten 100 (by omega) ids.length ids le_rfl
  · intro c hc
    exact chunkFuel_sizes 100 ids.length ids c hc
  · intro h
    subst h
    rfl
  · intro ids2 h2
    rw [delete_destinations_eq]
    show (chunkList 100 ids2).map List.length = [100, 100, 50]
    unfold chunkList
    rw [chunkFuel_map_length, h2]
    rfl

/-- **C3 witness**: the hypotheses of `batch_partitioning` discharged at
concrete inputs — the empty list issues zero requests, a concrete batch
respects the size bound, and the concrete 250-element list `0,…,249` is cut
into sizes `[100, 100, 50]`. -/
theorem batch_partitioning_witness :
    (delete_destinations ([] : List Int) (fun _ => 200) 100).calls = []
    ∧ [(1 : Int), 2, 3].length ≤ 100
    ∧ (delete_destinations ((List.range 250).map Int.ofNat)
        (fun _ => 200) 100).calls.map List.length = [100, 100, 50] :=
  ⟨(batch_partitioning [] (fun _ => 200)).2.2.2.2.1 rfl,
   (batch_partitioning [1, 2, 3] (fun _ => 200)).2.2.2.1 [1, 2, 3] (by decide),
   (batch_partitioning [] (fun _ => 200)).2.2.2.2.2
     ((List.range 250).map Int.ofNat) (by simp)⟩

/-- **C4** (per-batch atomic outcome attribution): for every ID list and
every per-batch status assignment, the deleted count is the total size of the
batches with status 200/202/204 and the failure list is the concatenation, in
order, of the batches with any other status; every ID of a failed batch is in
the failure list; and in the concrete 3-batch run on `0,…,249` where only
batch 2 (index 1) fails, the failures are exactly batch 2's IDs `100,…,199`
in order and the deleted count is `len(batch1) + len(batch3) = 100 + 50`. -/
theorem batch_outcome_attribution (ids : List Int) (status : Nat → Nat) :
    (delete_destinations ids status 100).deleted = succTotal status 0 (chunkList 100 ids)
    ∧ (delete_destinations ids status 100).failures = failedOf status 0 (chunkList 100 ids)
    ∧ (∀ (j : Nat) (c : List Int), (chunkList 100 ids)[j]? = some c →
        isSuccess (status j) = false →
        ∀ x ∈ c, x ∈ (delete_destinations ids status 100).failures)
    ∧ (∀ (ids2 : List Int) (st2 : Nat → Nat) (c0 c1 c2 : List Int),
        chunkList 100 ids2 = [c0, c1, c2] →
        isSuccess (st2 0) = true → isSuccess (st2 1) = false →
        isSuccess (st2 2) = true →
        (delete_destinations ids2 st2 100).failures = c1
        ∧ (delete_destinations ids2 st2 100).deleted = c0.length + c2.length)
    ∧ (delete_destinations ((List.range 250).map Int.ofNat)
        (fun j => if j = 1 then 500 else 200) 100).failures
        = (List.range' 100 100).map Int.ofNat
    ∧ (delete_destinations ((List.range 250).map Int.ofNat)
        (fun j => if j = 1 then 500 else 200) 100).deleted = 100 + 50 := by
  rw [delete_destinations_eq]
  refine ⟨rfl, rfl, ?_, ?_, ?_, ?_⟩
  · intro j c hc hfail x hx
    exact failedOf_mem status (chunkList 100 ids) 0 j c hc (by simpa using hfail) x hx
  · intro ids2 st2 c0 c1 c2 hch h0 h1 h2
    rw [delete_destinations_eq, hch]
    constructor
    · show failedOf st2 0 [c0, c1, c2] = c1
      simp [failedOf, h0, h1, h2]
    · show succTotal st2 0 [c0, c1, c2] = c0.length + c2.length
      simp [succTotal, h0, h1, h2]
  · rw [delete_destinations_eq]
    rfl
  · rw [delete_destinations_eq]
    rfl

/-- **C4 witness**: the hypotheses of `batch_outcome_attribution` discharged
at concrete inputs — a failed one-batch run puts its IDs in the failure list,
and the concrete batch-2-of-3 failure scenario on `0,…,249`. -/
theorem batch_outcome_attribution_witness :
    (2 : Int) ∈ (delete_destinations [1, 2, 3] (fun _ => 500) 100).failures
    ∧ ((delete_destinations ((List.range 250).map Int.ofNat)
          (fun j => if j = 1 then 500 else 200) 100).failures
        = (List.range' 100 100).map Int.ofNat
      ∧ (delete_destinations ((List.range 250).map Int.ofNat)
          (fun j => if j = 1 then 500 else 200) 100).deleted
        = ((List.range 100).map Int.ofNat).length
          + ((List.range' 200 50).map Int.ofNat).length) :=
  ⟨(batch_outcome_attribution [1, 2, 3] (fun _ => 500)).2.2.1 0 [1, 2, 3]
      (by decide) (by decide) 2 (by decide),
   (batch_outcome_attribution [] (fun _ => 0)).2.2.2.1
      ((List.range 250).map Int.ofNat) (fun j => if j = 1 then 500 else 200)
      ((List.range 100).map Int.ofNat) ((List.range' 100 100).map Int.ofNat)
      ((List.range' 200 50).map Int.ofNat)
      (by decide) (by decide) (by decide) (by decide)⟩

/-- **C10** (attribution invariant): for every ID list and every per-batch
status assignment, each input ID is attributed to exactly one outcome — the
returned deleted count plus the length of the returned failure list equals
the input length, and the failure list is a subsequence of the input ID list
in its original order. -/
theorem deletion_conservation (ids : List Int) (status : Nat → Nat) :
    (delete_destinations ids status 100).deleted
      + (delete_destinations ids status 100).failures.length = ids.length
    ∧ List.Sublist (delete_destinations ids status 100).failures ids := by
  have hflat : (chunkList 100 ids).flatten = ids :=
    chunkFuel_flatten 100 (by omega) ids.length ids le_rfl
  rw [delete_destinations_eq]
  constructor
  · rw [succTotal_add_failed status (chunkList 100 ids) 0, hflat]
  · have := failedOf_sublist status (chunkList 100 ids) 0
    rwa [hflat] at this

theorem keepByAge_iff (now cd : Int) (row : Record) :
    keepByAge now cd row = true ↔
      (parseTsField (row.get "createdAt") = none
        ∨ ∃ t, parseTsField (row.get "createdAt") = some t ∧ t ≤ now - cd * dayUs) := by
  unfold keepByAge
  cases h : parseTsField (row.get "createdAt") with
  | none => simp [h]
  | some t => simp [h]

theorem defenderInactive_some_iff (now d : Int) (row : Record) :
    defenderInactive now (some d) row = true ↔
      (parseTsField (row.get "observedInDefender") = none
        ∨ ∃ t, parseTsField (row.get "observedInDefender") = some t
            ∧ t ≤ now - d * dayUs) := by
  unfold defenderInactive
  cases h : parseTsField (row.get "observedInDefender") with
  | none => simp [h]
  | some t => simp [h]

theorem countP_split {α : Type} (p : α → Bool) (l : List α) :
    (l.filter p).length + l.countP (fun a => !p a) = l.length := by
  induction l with
  | nil => rfl
  | cons x xs ih =>
      by_cases h : p x = true <;>
        simp [List.filter_cons, List.countP_cons, h] <;> omega

theorem selectCandidates_none (rows : List Record) (now cd : Int) :
    selectCandidates rows now cd none = rows.filter (keepByAge now cd) := by
  unfold selectCandidates
  apply List.filter_congr
  intro a _
  simp [defenderInactive]

/-- **C2** (inclusive, conservative age filter): for every record set and
every `ageDays`, `filter_by_created_age` keeps a record iff its `createdAt`
is unparseable or `≤ now − ageDays`; a record whose `createdAt` equals the
cutoff exactly is kept (inclusive boundary); and the kept count plus the
discarded-as-too-new count equals the total input count. -/
theorem age_filter_keep (rows : List Record) (now created_days : Int) :
    (∀ row, row ∈ (filter_by_created_age rows now created_days).1 ↔
        row ∈ rows
        ∧ (parseTsField (row.get "createdAt") = none
            ∨ ∃ t, parseTsField (row.get "createdAt") = some t
                ∧ t ≤ now - created_days * dayUs))
    ∧ (∀ row ∈ rows,
        parseTsField (row.get "createdAt") = some (now - created_days * dayUs) →
        row ∈ (filter_by_created_age rows now created_days).1)
    ∧ (filter_by_created_age rows now created_days).1.length
        + (filter_by_created_age rows now created_days).2 = rows.length := by
  refine ⟨?_, ?_, ?_⟩
  · intro row
    unfold filter_by_created_age
    rw [List.mem_filter, keepByAge_iff]
  · intro row hmem hcut
    unfold filter_by_created_age
    rw [List.mem_filter, keepByAge_iff]
    exact ⟨hmem, Or.inr ⟨now - created_days * dayUs, hcut, le_refl _⟩⟩
  · exact countP_split (keepByAge now created_days) rows

/-- **C2 witness**: a record created exactly `now − 30` days before `now` is
kept, and the counts add up, at a concrete one-row input. -/
theorem age_filter_keep_witness :
    [("createdAt", "2024-01-01 00:00:00")]
      ∈ (filter_by_created_age [[("createdAt", "2024-01-01 00:00:00")]]
          (1704067200000000 + 30 * dayUs) 30).1
    ∧ (filter_by_created_age [[("createdAt", "2024-01-01 00:00:00")]]
          (1704067200000000 + 30 * dayUs) 30).1.length
      + (filter_by_created_age [[("createdAt", "2024-01-01 00:00:00")]]
          (1704067200000000 + 30 * dayUs) 30).2 = 1 :=
  ⟨(age_filter_keep [[("createdAt", "2024-01-01 00:00:00")]]
      (1704067200000000 + 30 * dayUs) 30).2.1
      [("createdAt", "2024-01-01 00:00:00")] (by decide) (by decide),
   (age_filter_keep [[("createdAt", "2024-01-01 00:00:00")]]
      (1704067200000000 + 30 * dayUs) 30).2.2⟩

/-- **C1** (candidate selection with inactivity criterion): with
`inactivityDays` given, a record is a candidate iff it is in the input, is
age-qualifying (`createdAt` unparseable or `≤ now − ageDays`), and its
`observedInDefender` is unparseable/absent or `≤ now − inactivityDays`;
every candidate is age-qualifying (subset of the age-qualifying set); and an
age-qualifying input record whose `observedInDefender` is strictly after the
inactivity cutoff is not a candidate. -/
theorem selector_inactivity (rows : List Record) (fieldnames : List String)
    (now created_days d : Int) :
    (∀ row, row ∈ (run_cleanup_selector rows fieldnames now created_days
        (some d)).candidates ↔
        row ∈ rows
        ∧ (parseTsField (row.get "createdAt") = none
            ∨ ∃ t, parseTsField (row.get "createdAt") = some t
                ∧ t ≤ now - created_days * dayUs)
        ∧ (parseTsField (row.get "observedInDefender") = none
            ∨ ∃ t, parseTsField (row.get "observedInDefender") = some t
                ∧ t ≤ now - d * dayUs))
    ∧ (∀ row ∈ (run_cleanup_selector rows fieldnames now created_days
        (some d)).candidates, keepByAge now created_days row = true)
    ∧ (∀ row ∈ rows, ∀ t,
        parseTsField (row.get "observedInDefender") = some t →
        now - d * dayUs < t →
        row ∉ (run_cleanup_selector rows fieldnames now created_days
          (some d)).candidates) := by
  refine ⟨?_, ?_, ?_⟩
  · intro row
    show row ∈ selectCandidates rows now created_days (some d) ↔ _
    unfold selectCandidates
    rw [List.mem_filter, Bool.and_eq_true, keepByAge_iff, defenderInactive_some_iff]
  · intro row hrow
    have : row ∈ selectCandidates rows now created_days (some d) := hrow
    unfold selectCandidates at this
    rw [List.mem_filter, Bool.and_eq_true] at this
    exact this.2.1
  · intro row _ t ht hafter hmem
    have : row ∈ selectCandidates rows now created_days (some d) := hmem
    unfold selectCandidates at this
    rw [List.mem_filter, Bool.and_eq_true, defenderInactive_some_iff] at this
    rcases this.2.2 with h | ⟨t', ht', hle⟩
    · rw [ht] at h; cases h
    · rw [ht] at ht'
      cases ht'
      omega

/-- **C1 witness**: at concrete inputs — an age-qualifying record observed
in Defender after the inactivity cutoff is excluded from the candidates, and
a concrete candidate is age-qualifying. -/
theorem selector_inactivity_witness :
    [("createdAt", "2023-01-01 00:00:00"),
     ("observedInDefender", "2023-12-31 00:00:00")]
      ∉ (run_cleanup_selector
          [[("createdAt", "2023-01-01 00:00:00"),
            ("observedInDefender", "2023-12-31 00:00:00")]]
          [] 1704067200000000 30 (some 7)).candidates
    ∧ keepByAge 1704067200000000 30 [("createdAt", "2023-01-01 00:00:00")] = true :=
  ⟨(selector_inactivity
      [[("createdAt", "2023-01-01 00:00:00"),
        ("observedInDefender", "2023-12-31 00:00:00")]]
      [] 1704067200000000 30 7).2.2
    [("createdAt", "2023-01-01 00:00:00"),
     ("observedInDefender", "2023-12-31 00:00:00")]
    (by decide) 1703980800000000 (by decide) (by decide),
   (selector_inactivity [[("createdAt", "2023-01-01 00:00:00")]]
      [] 1704067200000000 30 7).2.1
    [("createdAt", "2023-01-01 00:00:00")] (by decide)⟩

/-- **C6** (selection without inactivity criterion): when `inactivityDays`
is absent, the candidate set equals exactly the age-qualifying input records
in input order, and the candidate CSV rows are those records restricted to
the non-empty column names. -/
theorem selector_no_inactivity (rows : List Record) (fieldnames : List String)
    (now created_days : Int) :
    (run_cleanup_selector rows fieldnames now created_days none).candidates
      = (filter_by_created_age rows now created_days).1
    ∧ (run_cleanup_selector rows fieldnames now created_days none).csvRows
      = (filter_by_created_age rows now created_days).1.map
          (cleanRow (fieldnames.filter (fun fn => fn ≠ ""))) := by
  constructor
  · show selectCandidates rows now created_days none = _
    rw [selectCandidates_none]
    rfl
  · show (selectCandidates rows now created_days none).map _ = _
    rw [selectCandidates_none]
    rfl

theorem extractIds_skip (row : Record) (rest : List Record)
    (h : row.get "id" = none ∨ row.get "id" = some "") :
    extractIds (row :: rest) = extractIds rest := by
  rcases h with h | h <;> simp [extractIds, h]

theorem extractIds_ok :
    ∀ cands : List Record,
    (∀ row ∈ cands, ∀ s, truthyId row = some s → (pyInt s).isSome = true) →
    extractIds cands
      = some (cands.filterMap (fun row => (truthyId row).bind pyInt)) := by
  intro cands
  induction cands with
  | nil => intro _; rfl
  | cons row rest ih =>
      intro h
      have hrest := ih (fun r hr => h r (List.mem_cons_of_mem _ hr))
      cases hid : row.get "id" with
      | none => simp [extractIds, hid, hrest, truthyId]
      | some s =>
          by_cases hs : s = ""
          · subst hs
            simp [extractIds, hid, hrest, truthyId]
          · have hp : (pyInt s).isSome = true :=
              h row (List.mem_cons_self _ _) s (by simp [truthyId, hid, hs])
            obtain ⟨n, hn⟩ := Option.isSome_iff_exists.mp hp
            simp [extractIds, hid, hs, hn, hrest, truthyId]

theorem extractIds_mem :
    ∀ (cands : List Record) (l : List Int),
    extractIds cands = some l → ∀ x ∈ l,
    ∃ row ∈ cands, ∃ s, truthyId row = some s ∧ pyInt s = some x := by
  intro cands
  induction cands with
  | nil =>
      intro l hl x hx
      simp only [extractIds, Option.some.injEq] at hl
      subst hl
      simp at hx
  | cons row rest ih =>
      intro l hl x hx
      cases hid : row.get "id" with
      | none =>
          simp only [extractIds, hid] at hl
          obtain ⟨r, hr, s, hts, hps⟩ := ih l hl x hx
          exact ⟨r, List.mem_cons_of_mem _ hr, s, hts, hps⟩
      | some s =>
          by_cases hs : s = ""
          · subst hs
            simp only [extractIds, hid, if_pos rfl] at hl
            obtain ⟨r, hr, s', hts, hps⟩ := ih l hl x hx
            exact ⟨r, List.mem_cons_of_mem _ hr, s', hts, hps⟩
          · cases hp : pyInt s with
            | none => simp [extractIds, hid, hs, hp] at hl
            | some n =>
                simp only [extractIds, hid, if_neg hs, hp] at hl
                cases hrest : extractIds rest with
                | none => rw [hrest] at hl; simp at hl
                | some l' =>
                    rw [hrest] at hl
                    simp only [Option.map_some', Option.some.injEq] at hl
                    subst hl
                    rcases List.mem_cons.mp hx with hx | hx
                    · subst hx
                      exact ⟨row, List.mem_cons_self _ _, s,
                        by simp [truthyId, hid, hs], hp⟩
                    · obtain ⟨r, hr, s', hts, hps⟩ := ih l' hrest x hx
                      exact ⟨r, List.mem_cons_of_mem _ hr, s', hts, hps⟩

/-- **C7** (ID list extraction is total on missing/blank ids and filtered):
a record whose `id` is missing or blank is skipped without failing; when
every truthy `id` among the candidates is integer-parseable the exported
list is exactly the coerced `id` of every such candidate, in order; every
exported value is the integer coercion of some candidate's truthy `id`
(never a blank or non-integer value); and a candidate lacking `id` still
appears in the candidate CSV rows. -/
theorem id_extraction :
    (∀ (row : Record) (rest : List Record),
        (row.get "id" = none ∨ row.get "id" = some "") →
        extractIds (row :: rest) = extractIds rest)
    ∧ (∀ cands : List Record,
        (∀ row ∈ cands, ∀ s, truthyId row = some s → (pyInt s).isSome = true) →
        extractIds cands
          = some (cands.filterMap (fun row => (truthyId row).bind pyInt)))
    ∧ (∀ (cands : List Record) (l : List Int),
        extractIds cands = some l → ∀ x ∈ l,
        ∃ row ∈ cands, ∃ s, truthyId row = some s ∧ pyInt s = some x)
    ∧ (∀ (rows : List Record) (fieldnames : List String) (now cd : Int)
        (dd : Option Int) (row : Record),
        row ∈ (run_cleanup_selector rows fieldnames now cd dd).candidates →
        row.get "id" = none →
        cleanRow (fieldnames.filter (fun fn => fn ≠ "")) row
          ∈ (run_cleanup_selector rows fieldnames now cd dd).csvRows) := by
  refine ⟨extractIds_skip, extractIds_ok, extractIds_mem, ?_⟩
  intro rows fieldnames now cd dd row hrow _
  exact List.mem_map_of_mem _ hrow

/-- **C7 witness**: at concrete inputs — a record with no `id` is skipped
without failing, a well-formed candidate list extracts successfully, every
extracted value traces back to a truthy `id`, and a candidate lacking `id`
still appears in the CSV rows. -/
theorem id_extraction_witness :
    extractIds [[("destination", "x")], [("id", "7")]] = extractIds [[("id", "7")]]
    ∧ extractIds [[("id", "7")]]
        = some ([[("id", "7")]].filterMap
            (fun row => (truthyId row).bind pyInt))
    ∧ (∃ row ∈ [[("id", "7")]], ∃ s, truthyId row = some s ∧ pyInt s = some 7)
    ∧ cleanRow (["destination"].filter (fun fn => fn ≠ "")) [("destination", "x")]
        ∈ (run_cleanup_selector [[("destination", "x")]] ["destination"]
            0 0 none).csvRows :=
  ⟨id_extraction.1 [("destination", "x")] [[("id", "7")]] (Or.inl (by decide)),
   id_extraction.2.1 [[("id", "7")]] (by
      intro r hr s hs
      rw [List.mem_singleton] at hr
      subst hr
      rw [show truthyId [("id", "7")] = some "7" from rfl,
        Option.some.injEq] at hs
      subst hs
      decide),
   id_extraction.2.2.1 [[("id", "7")]] [7] (by decide) 7 (by decide),
   id_extraction.2.2.2 [[("destination", "x")]] ["destination"] 0 0 none
     [("destination", "x")] (by decide) (by decide)⟩

/-- **C5** (dry-run semantics): for every path, ID list, confirmation answer
and persistence outcome, a dry run with the file present and authentication
succeeding performs authentication, issues no delete network call, reports
the full input ID list verbatim as the "would delete" list, writes no
failed-IDs file, and terminates in the dry-run sentinel state rather than
any deleted-count outcome. -/
theorem dry_run_semantics (p : String) (ids : List Int) (confirmed : Bool)
    (status : Nat → Nat) (persistOk : Bool) :
    run_umbrella_delete p true ids confirmed true status persistOk true
      = ⟨.dryRun, true, [], some ids, none⟩ := rfl

/-- **C9 counterexample**: two clauses of the claim fail on the code at
concrete inputs.  The failed-IDs file path is not obtained by appending a
fixed suffix to the ID-list path — for the ID-list path `"ids.json"` the
code writes to `"ids_failed.json"`, and no string appended to `"ids.json"`
yields `"ids_failed.json"`.  And a failure of the persistence itself is
fatal, not non-fatal: a one-batch live run whose batch fails and whose
failed-IDs write fails ends in the propagated I/O error instead of
reporting the deletion outcome already achieved. -/
theorem failed_ids_claim_counterexample :
    (failPathOf "ids.json" = "ids_failed.json"
      ∧ ¬ ∃ s : String, "ids.json" ++ s = "ids_failed.json")
    ∧ (run_umbrella_delete "ids.json" true [1] true true
        (fun _ => 500) false false).result = .ioError := by
  refine ⟨⟨rfl, ?_⟩, rfl⟩
  · rintro ⟨s, h⟩
    have hd : "ids.json".data ++ s.data = "ids_failed.json".data := by
      have := congrArg String.data h
      rwa [String.data_append] at this
    have h4 : ("ids.json".data ++ s.data).take 4 = "ids_failed.json".data.take 4 := by
      rw [hd]
    rw [List.take_append_of_le_length (by decide)] at h4
    exact absurd h4 (by decide)

/-- **C9 amended** (failed-IDs persistence): at the end of a live deletion
run, a failed-IDs file write is attempted iff `failedIds` is non-empty, at
the sibling path obtained by replacing the ID-list path's extension with the
fixed suffix `_failed.json`, containing exactly the failed IDs; when the
write succeeds the run returns the deleted count; when the write itself
fails the error propagates and the run does not report the deletion outcome
(the code wraps the write in no handler). -/
theorem failed_ids_persistence (p : String) (ids : List Int)
    (status : Nat → Nat) (persistOk : Bool) :
    ((delete_destinations ids status 100).failures = [] →
      run_umbrella_delete p true ids true true status persistOk false
        = ⟨.live (delete_destinations ids status 100).deleted, true,
           (delete_destinations ids status 100).calls, none, none⟩)
    ∧ ((delete_destinations ids status 100).failures ≠ [] → persistOk = true →
      run_umbrella_delete p true ids true true status persistOk false
        = ⟨.live (delete_destinations ids status 100).deleted, true,
           (delete_destinations ids status 100).calls, none,
           some (failPathOf p, (delete_destinations ids status 100).failures)⟩)
    ∧ ((delete_destinations ids status 100).failures ≠ [] → persistOk = false →
      run_umbrella_delete p true ids true true status persistOk false
        = ⟨.ioError, true,
           (delete_destinations ids status 100).calls, none, none⟩) := by
  refine ⟨?_, ?_, ?_⟩
  · intro h
    simp [run_umbrella_delete, h]
  · intro h hp
    subst hp
    simp [run_umbrella_delete, List.isEmpty_iff, h, failPathOf]
  · intro h hp
    subst hp
    simp [run_umbrella_delete, List.isEmpty_iff, h]

/-- **C9 witness**: the amended persistence behaviour at concrete one-batch
live runs — no failures means no write, a failed batch with a successful
write persists it at the sibling path, and a failed batch with a failing
write ends in the propagated error. -/
theorem failed_ids_persistence_witness :
    run_umbrella_delete "ids.json" true [1] true true (fun _ => 200) true false
      = ⟨.live (delete_destinations [1] (fun _ => 200) 100).deleted, true,
         (delete_destinations [1] (fun _ => 200) 100).calls, none, none⟩
    ∧ run_umbrella_delete "ids.json" true [1] true true (fun _ => 500) true false
      = ⟨.live (delete_destinations [1] (fun _ => 500) 100).deleted, true,
         (delete_destinations [1] (fun _ => 500) 100).calls, none,
         some (failPathOf "ids.json",
           (delete_destinations [1] (fun _ => 500) 100).failures)⟩
    ∧ run_umbrella_delete "ids.json" true [1] true true (fun _ => 500) false false
      = ⟨.ioError, true,
         (delete_destinations [1] (fun _ => 500) 100).calls, none, none⟩ :=
  ⟨(failed_ids_persistence "ids.json" [1] (fun _ => 200) true).1 (by decide),
   (failed_ids_persistence "ids.json" [1] (fun _ => 500) true).2.1 (by decide) rfl,
   (failed_ids_persistence "ids.json" [1] (fun _ => 500) false).2.2 (by decide) rfl⟩

theorem stripWs_of_all_ws (l : List Char) (h : l.all Char.isWhitespace = true) :
    stripWs l = [] := by
  unfold stripWs
  have h1 : l.dropWhile Char.isWhitespace = [] := by
    rw [List.dropWhile_eq_nil_iff]
    intro x hx
    exact List.all_eq_true.mp h x hx
  rw [h1]
  rfl

/-- **C8** (timestamp normalizer contract): `parse_timestamp` always returns
a UTC instant or Unparseable (never throws); an all-whitespace (or empty)
input is Unparseable; an input without a literal `T` is handled by the fixed
pattern `YYYY-MM-DD HH:MM:SS` assumed UTC; an input containing `T` is parsed
as ISO-8601 on the `Z → +00:00` normalised string, falling back to the fixed
pattern when that fails; a trailing `Z`, an explicit `+00:00`/`+01:00`
offset, a timezone-naive ISO string and the fixed format all denoting UTC
midnight 2024-01-01 yield the same instant; and unrecognized input is
Unparseable. -/
theorem timestamp_contract :
    (∀ v : String, parse_timestamp v = none ∨ ∃ t, parse_timestamp v = some t)
    ∧ (∀ v : String, v.data.all Char.isWhitespace = true → parse_timestamp v = none)
    ∧ (∀ v : String, v ≠ "" → (stripWs v.data).contains 'T' = false →
        parse_timestamp v = fromFixed (stripWs v.data))
    ∧ (∀ (v : String) (t : Int), v ≠ "" → (stripWs v.data).contains 'T' = true →
        fromIso (replaceZ (stripWs v.data)) = some t → parse_timestamp v = some t)
    ∧ (∀ v : String, v ≠ "" → (stripWs v.data).contains 'T' = true →
        fromIso (replaceZ (stripWs v.data)) = none →
        parse_timestamp v = fromFixed (stripWs v.data))
    ∧ parse_timestamp "2024-01-01T00:00:00Z" = some 1704067200000000
    ∧ parse_timestamp "2024-01-01T00:00:00+00:00" = some 1704067200000000
    ∧ parse_timestamp "2024-01-01T00:00:00" = some 1704067200000000
    ∧ parse_timestamp "2024-01-01T01:00:00+01:00" = some 1704067200000000
    ∧ parse_timestamp "2024-01-01 00:00:00" = some 1704067200000000
    ∧ parse_timestamp "" = none
    ∧ parse_timestamp "not a timestamp" = none := by
  refine ⟨?_, ?_, ?_, ?_, ?_, rfl, rfl, rfl, rfl, rfl, rfl, rfl⟩
  · intro v
    cases h : parse_timestamp v with
    | none => exact Or.inl rfl
    | some t => exact Or.inr ⟨t, rfl⟩
  · intro v h
    by_cases hv : v = ""
    · subst hv; rfl
    · have hw := stripWs_of_all_ws v.data h
      simp only [parse_timestamp, hv, if_false]
      rw [hw]
      rfl
  · intro v hv hT
    have hT' : 'T' ∉ stripWs v.data := by simpa using hT
    simp [parse_timestamp, hv, hT']
  · intro v t hv hT hiso
    have hT' : 'T' ∈ stripWs v.data := by simpa using hT
    simp [parse_timestamp, hv, hT', hiso]
  · intro v hv hT hiso
    have hT' : 'T' ∈ stripWs v.data := by simpa using hT
    simp [parse_timestamp, hv, hT', hiso]

/-- **C8 witness**: the quantified parts of `timestamp_contract` discharged
at concrete inputs — a whitespace string is Unparseable, a `T`-free string
goes through the fixed pattern, a `T`-string with a successful ISO parse
returns that instant, and a `T`-string whose ISO parse fails falls back to
the fixed pattern. -/
theorem timestamp_contract_witness :
    parse_timestamp "   " = none
    ∧ parse_timestamp "x" = fromFixed (stripWs "x".data)
    ∧ parse_timestamp "2024-06-15T12:30:45Z" = some 1718454645000000
    ∧ parse_timestamp "T" = fromFixed (stripWs "T".data) :=
  ⟨timestamp_contract.2.1 "   " (by decide),
   timestamp_contract.2.2.1 "x" (by decide) (by decide),
   timestamp_contract.2.2.2.1 "2024-06-15T12:30:45Z" 1718454645000000
     (by decide) (by decide) (by decide),
   timestamp_contract.2.2.2.2.1 "T" (by decide) (by decide) (by decide)⟩

end Umbrella
